import Mathlib

/-!
Shallow embedding of `hospital_system.py` and the API layer of `app.py`
(Hospital_Management_System repository), with theorems about the claims of
the specification.

Modelling conventions:
* Python's `uuid`-generated 8-character patient ids are modelled as natural
  numbers handed out by a fresh-id counter (`next_id`) on the facade state;
  the source guarantees process-wide uniqueness of the generated tokens.
* Wall-clock timestamps (`datetime.datetime.now()`) are modelled by passing
  the timestamp string as an explicit argument to the operations that stamp
  entries.
* The Python `dict` `patient_records` is modelled as a function
  `Nat → Option TreatmentStack`; unguarded `dict[key]` indexing that would
  raise `KeyError` is modelled by the operation returning `none`.
* Python's `str.lower` is modelled by `pyLower` (ASCII lowering of the
  character sequence), which agrees with it on all names in this program.
-/

namespace Hospital

/-- Models Python `str.lower()` on the ASCII strings used by the program. -/
def pyLower (s : String) : String := String.mk (s.data.map Char.toLower)

/-! ### PatientNode / PatientQueue (`hospital_system.py`, linked-list queue)

The linked list with head/tail pointers is embedded as the list of its nodes
in head-to-tail order, alongside the separately maintained `size` field. -/

/-- A patient entry of the queue (`PatientNode`). -/
structure PatientNode where
  patient_id : Nat
  name : String
  condition : String
deriving DecidableEq

/-- The FIFO patient queue (`PatientQueue`): node sequence in head-to-tail
order plus the maintained `size` counter. -/
structure PatientQueue where
  items : List PatientNode
  size : Nat
deriving DecidableEq

/-- `PatientQueue.__init__`: empty queue. -/
def PatientQueue.init : PatientQueue := { items := [], size := 0 }

/-- `PatientQueue.is_empty`. -/
def PatientQueue.is_empty (q : PatientQueue) : Bool := q.items.isEmpty

/-- `PatientQueue.enqueue`: appends a node at the tail and increments `size`.
The freshly generated id is supplied by the caller (see module comment). -/
def PatientQueue.enqueue (q : PatientQueue) (patient_id : Nat)
    (name condition : String) : PatientNode × PatientQueue :=
  let new_patient : PatientNode := { patient_id, name, condition }
  (new_patient, { items := q.items ++ [new_patient], size := q.size + 1 })

/-- `PatientQueue.dequeue`: removes and returns the head; `none` on an empty
queue (which is left unchanged). -/
def PatientQueue.dequeue (q : PatientQueue) : Option PatientNode × PatientQueue :=
  match q.items with
  | [] => (none, q)
  | p :: rest => (some p, { items := rest, size := q.size - 1 })

/-- `PatientQueue.to_list`: snapshot of (id, name, condition) triples. -/
def PatientQueue.to_list (q : PatientQueue) : List (Nat × String × String) :=
  q.items.map (fun p => (p.patient_id, p.name, p.condition))

/-! ### TreatmentStack (`hospital_system.py`, per-patient ledger) -/

/-- One timestamped treatment step (`{"timestamp": ..., "detail": ...}`). -/
structure TreatmentEntry where
  timestamp : String
  detail : String
deriving DecidableEq

/-- The per-patient LIFO ledger (`TreatmentStack`): `_items` in insertion
(chronological) order plus the mutable record fields. -/
structure TreatmentStack where
  items : List TreatmentEntry
  patient_id : Option Nat
  initial_condition : String
  status : String
  assigned_doctor : Option String
deriving DecidableEq

/-- `TreatmentStack.__init__`. -/
def TreatmentStack.init : TreatmentStack :=
  { items := [], patient_id := none, initial_condition := "",
    status := "Waiting", assigned_doctor := none }

/-- `TreatmentStack.push`: appends a step stamped with the current time
(passed explicitly, see module comment). -/
def TreatmentStack.push (s : TreatmentStack) (timestamp detail : String) :
    TreatmentStack :=
  { s with items := s.items ++ [{ timestamp, detail }] }

/-- `TreatmentStack.pop`: removes and returns the most recent step; `none`
(and no change) when the history is empty. -/
def TreatmentStack.pop (s : TreatmentStack) : Option TreatmentEntry × TreatmentStack :=
  match s.items.getLast? with
  | none => (none, s)
  | some e => (some e, { s with items := s.items.dropLast })

/-- `TreatmentStack.get_history`: the underlying list, oldest first. -/
def TreatmentStack.get_history (s : TreatmentStack) : List TreatmentEntry := s.items

/-! ### Operation sequences on the queue (for the FIFO/size law, C3) -/

/-- A single queue operation: an enqueue (with the id the caller generated)
or a dequeue. -/
inductive QOp where
  | enq (patient_id : Nat) (name condition : String)
  | deq
deriving DecidableEq

/-- Applies one queue operation, discarding the returned value. -/
def QOp.apply : QOp → PatientQueue → PatientQueue
  | .enq pid n c, q => (q.enqueue pid n c).2
  | .deq, q => q.dequeue.2

/-- Runs a sequence of queue operations. -/
def runQ : List QOp → PatientQueue → PatientQueue
  | [], q => q
  | op :: rest, q => runQ rest (op.apply q)

/-- Number of enqueues in an operation sequence. -/
def countEnq : List QOp → Nat
  | [] => 0
  | .enq _ _ _ :: rest => countEnq rest + 1
  | .deq :: rest => countEnq rest

/-- Number of successful dequeues (dequeues returning an entry) performed
when running an operation sequence from a given queue. -/
def deqSucc : List QOp → PatientQueue → Nat
  | [], _ => 0
  | .enq pid n c :: rest, q => deqSucc rest (q.enqueue pid n c).2
  | .deq :: rest, q =>
    match q.dequeue with
    | (some _, q2) => deqSucc rest q2 + 1
    | (none, q2) => deqSucc rest q2

/-- Enqueues a list of entries in order. -/
def enqAll (ns : List PatientNode) (q : PatientQueue) : PatientQueue :=
  ns.foldl (fun acc p => (acc.enqueue p.patient_id p.name p.condition).2) q

/-- Performs up to `k` dequeues, collecting the returned entries in order. -/
def deqN : Nat → PatientQueue → List PatientNode × PatientQueue
  | 0, q => ([], q)
  | k + 1, q =>
    match q.dequeue with
    | (none, q2) => ([], q2)
    | (some p, q2) =>
      let r := deqN k q2
      (p :: r.1, r.2)

theorem enqueue_items (q : PatientQueue) (pid : Nat) (n c : String) :
    ((q.enqueue pid n c).2).items = q.items ++ [{ patient_id := pid, name := n, condition := c }] := rfl

theorem enqAll_items (ns : List PatientNode) (q : PatientQueue) :
    (enqAll ns q).items = q.items ++ ns := by
  induction ns generalizing q with
  | nil => simp [enqAll]
  | cons p rest ih =>
    simp only [enqAll, List.foldl_cons] at *
    rw [ih]
    simp [PatientQueue.enqueue]

theorem deqN_fst (k : Nat) (q : PatientQueue) :
    (deqN k q).1 = q.items.take k := by
  induction k generalizing q with
  | zero => simp [deqN]
  | succ k ih =>
    cases hq : q.items with
    | nil =>
      simp [deqN, PatientQueue.dequeue, hq]
    | cons p rest =>
      simp only [deqN, PatientQueue.dequeue, hq, List.take_succ_cons]
      rw [ih]

theorem size_law (ops : List QOp) (q : PatientQueue)
    (h : q.size = q.items.length) :
    (runQ ops q).size + deqSucc ops q = q.size + countEnq ops := by
  induction ops generalizing q with
  | nil => simp [runQ, deqSucc, countEnq]
  | cons op rest ih =>
    cases op with
    | enq pid n c =>
      have h2 : ((q.enqueue pid n c).2).size = ((q.enqueue pid n c).2).items.length := by
        simp [PatientQueue.enqueue, h]
      have := ih (q.enqueue pid n c).2 h2
      simp only [runQ, QOp.apply, deqSucc, countEnq]
      rw [this]
      simp [PatientQueue.enqueue]
      omega
    | deq =>
      cases hq : q.items with
      | nil =>
        have hdq : q.dequeue = (none, q) := by
          simp [PatientQueue.dequeue, hq]
        have := ih q.dequeue.2 (by rw [hdq]; exact h)
        simp only [runQ, QOp.apply, deqSucc, countEnq]
        rw [hdq] at this ⊢
        simp only [hdq]
        simpa using this
      | cons p restq =>
        have hdq : q.dequeue = (some p, { items := restq, size := q.size - 1 }) := by
          simp [PatientQueue.dequeue, hq]
        have hlen : q.size = restq.length + 1 := by rw [h, hq]; simp
        have h2 : ({ items := restq, size := q.size - 1 } : PatientQueue).size
            = ({ items := restq, size := q.size - 1 } : PatientQueue).items.length := by
          simp [hlen]
        have hrec := ih { items := restq, size := q.size - 1 } h2
        dsimp only at hrec
        simp only [runQ, QOp.apply, deqSucc, countEnq, hdq]
        omega

/-- C3: for every sequence of enqueues, dequeues return the enqueued entries
in exactly arrival (FIFO) order (performing `k` dequeues after enqueueing
`ns` onto an empty queue yields the first `k` entries of `ns` in order), and
after any interleaving of enqueues and dequeues starting from a consistent
queue the `size` field equals its previous value plus the number of enqueues
minus the number of successful dequeues performed. -/
theorem queue_fifo_and_size_law (ns : List PatientNode) (k : Nat)
    (ops : List QOp) (q : PatientQueue) (h : q.size = q.items.length) :
    (deqN k (enqAll ns PatientQueue.init)).1 = ns.take k ∧
    (runQ ops q).size + deqSucc ops q = q.size + countEnq ops := by
  constructor
  · rw [deqN_fst, enqAll_items]
    simp [PatientQueue.init]
  · exact size_law ops q h

/-- Witness for C3 at concrete inputs: three enqueues followed by two
dequeues return the first two enqueued patients in order, and the size law
holds for a concrete interleaving starting from the empty queue. -/
theorem queue_fifo_and_size_law_witness :
    (deqN 2 (enqAll [{ patient_id := 0, name := "A", condition := "x" },
                     { patient_id := 1, name := "B", condition := "y" },
                     { patient_id := 2, name := "C", condition := "z" }]
        PatientQueue.init)).1 =
      [{ patient_id := 0, name := "A", condition := "x" },
       { patient_id := 1, name := "B", condition := "y" }] ∧
    (runQ [QOp.enq 0 "A" "x", QOp.deq, QOp.enq 1 "B" "y", QOp.deq, QOp.deq]
        PatientQueue.init).size +
      deqSucc [QOp.enq 0 "A" "x", QOp.deq, QOp.enq 1 "B" "y", QOp.deq, QOp.deq]
        PatientQueue.init =
      PatientQueue.init.size +
        countEnq [QOp.enq 0 "A" "x", QOp.deq, QOp.enq 1 "B" "y", QOp.deq, QOp.deq] :=
  queue_fifo_and_size_law
    [{ patient_id := 0, name := "A", condition := "x" },
     { patient_id := 1, name := "B", condition := "y" },
     { patient_id := 2, name := "C", condition := "z" }] 2
    [QOp.enq 0 "A" "x", QOp.deq, QOp.enq 1 "B" "y", QOp.deq, QOp.deq]
    PatientQueue.init (by decide)

/-! ### The stack law (C4) -/

/-- Pushes a list of entries in order (each `push` stamps the entry's
timestamp and detail). -/
def pushAll (es : List TreatmentEntry) (s : TreatmentStack) : TreatmentStack :=
  es.foldl (fun acc e => acc.push e.timestamp e.detail) s

/-- Performs up to `k` pops, collecting the returned entries in order. -/
def popN : Nat → TreatmentStack → List TreatmentEntry × TreatmentStack
  | 0, s => ([], s)
  | k + 1, s =>
    match s.pop with
    | (none, s2) => ([], s2)
    | (some e, s2) =>
      let r := popN k s2
      (e :: r.1, r.2)

theorem pop_push (s : TreatmentStack) (ts d : String) :
    (s.push ts d).pop = (some { timestamp := ts, detail := d }, s) := by
  simp [TreatmentStack.push, TreatmentStack.pop, List.getLast?_concat]

/-- C4: for every sequence of pushes, successive pops return the pushed
entries in exactly reverse order of pushing, and after popping them all the
stack is back in its original state. -/
theorem stack_lifo_law (s : TreatmentStack) (es : List TreatmentEntry) :
    popN es.length (pushAll es s) = (es.reverse, s) := by
  induction es using List.reverseRecOn with
  | nil => simp [popN, pushAll]
  | append_singleton es e ih =>
    have hpush : pushAll (es ++ [e]) s = (pushAll es s).push e.timestamp e.detail := by
      simp [pushAll, TreatmentStack.push]
    rw [List.length_append, hpush]
    simp only [List.length_singleton, popN, pop_push]
    rw [ih]
    simp

/-! ### SpecializationNode / SpecializationTree (`hospital_system.py`)

The rose tree is embedded with an explicit forest type so that all
operations are structurally recursive (and hence evaluate by reduction).
`doctors` is an association list in insertion order, matching the
insertion-ordered Python dict. -/

mutual

/-- A department node (`SpecializationNode`): name, doctors (name paired
with description, in insertion order) and the ordered children. -/
inductive SNode where
  | mk (name : String) (doctors : List (String × String)) (children : SForest)
deriving DecidableEq

/-- The ordered list of children of a node. -/
inductive SForest where
  | nil
  | cons (c : SNode) (cs : SForest)
deriving DecidableEq

end

/-- Appends two forests (Python `list.append` on `children`). -/
def SForest.append : SForest → SForest → SForest
  | .nil, ys => ys
  | .cons x xs, ys => .cons x (xs.append ys)

/-- Python `node.doctors[doctor_name] = description`: overwrites in place
when the key exists (keeping its position), otherwise appends. -/
def putDoctor : List (String × String) → String → String → List (String × String)
  | [], doctor_name, description => [(doctor_name, description)]
  | (k, v) :: rest, doctor_name, description =>
    if k = doctor_name then (doctor_name, description) :: rest
    else (k, v) :: putDoctor rest doctor_name description

mutual

/-- `SpecializationTree._find_node`: case-insensitive depth-first search,
parent before children, children in insertion order; first match wins. -/
def find_node : SNode → String → Option SNode
  | .mk n ds cs, name =>
    if pyLower n = pyLower name then some (.mk n ds cs)
    else find_in_children cs name
termination_by structural t _ => t

/-- DFS over a forest of children, in order. -/
def find_in_children : SForest → String → Option SNode
  | .nil, _ => none
  | .cons c rest, name =>
    match find_node c name with
    | some r => some r
    | none => find_in_children rest name
termination_by structural f _ => f

end

mutual

/-- `SpecializationTree.add_specialization`, inner part: append a fresh
child node to the first DFS match of `parent` (the Python code mutates the
node returned by `_find_node` in place; here the updated tree is rebuilt
along the search path). `none` when no node matches. -/
def add_node (parent child : String) : SNode → Option SNode
  | .mk n ds cs =>
    if pyLower n = pyLower parent then
      some (.mk n ds (cs.append (.cons (.mk child [] .nil) .nil)))
    else
      (add_list parent child cs).map (fun cs2 => .mk n ds cs2)
termination_by structural t => t

/-- `add_node` over a forest of children, in order. -/
def add_list (parent child : String) : SForest → Option SForest
  | .nil => none
  | .cons c rest =>
    match add_node parent child c with
    | some c2 => some (.cons c2 rest)
    | none => (add_list parent child rest).map (fun r => .cons c r)
termination_by structural f => f

end

mutual

/-- `SpecializationTree.assign_doctor`, inner part: store/overwrite the
doctor's description on the first DFS match of `specialization_name`. -/
def assign_node (specialization_name doctor_name description : String) :
    SNode → Option SNode
  | .mk n ds cs =>
    if pyLower n = pyLower specialization_name then
      some (.mk n (putDoctor ds doctor_name description) cs)
    else
      (assign_list specialization_name doctor_name description cs).map
        (fun cs2 => .mk n ds cs2)
termination_by structural t => t

/-- `assign_node` over a forest of children, in order. -/
def assign_list (specialization_name doctor_name description : String) :
    SForest → Option SForest
  | .nil => none
  | .cons c rest =>
    match assign_node specialization_name doctor_name description c with
    | some c2 => some (.cons c2 rest)
    | none =>
      (assign_list specialization_name doctor_name description rest).map
        (fun r => .cons c r)
termination_by structural f => f

end

/-- The department tree (`SpecializationTree`), rooted at the hospital name. -/
structure SpecializationTree where
  root : SNode
deriving DecidableEq

/-- `SpecializationTree.add_specialization`: returns whether the parent was
found; on failure the tree is returned unchanged. -/
def SpecializationTree.add_specialization (t : SpecializationTree)
    (parent_name child_name : String) : Bool × SpecializationTree :=
  match add_node parent_name child_name t.root with
  | some r => (true, { root := r })
  | none => (false, t)

/-- `SpecializationTree.assign_doctor`: same lookup discipline. -/
def SpecializationTree.assign_doctor (t : SpecializationTree)
    (specialization_name doctor_name description : String) :
    Bool × SpecializationTree :=
  match assign_node specialization_name doctor_name description t.root with
  | some r => (true, { root := r })
  | none => (false, t)

/-- `SpecializationTree.__init__` with `_seed_structure`: the fixed seeded
hierarchy and staffing. -/
def SpecializationTree.seed (hospital_name : String) : SpecializationTree :=
  let t : SpecializationTree := { root := .mk hospital_name [] .nil }
  let t := (t.add_specialization hospital_name "Emergency").2
  let t := (t.add_specialization hospital_name "Internal Medicine").2
  let t := (t.add_specialization hospital_name "Surgery").2
  let t := (t.add_specialization "Internal Medicine" "Cardiology").2
  let t := (t.add_specialization "Internal Medicine" "Dermatology").2
  let t := (t.add_specialization "Internal Medicine" "Pediatrics").2
  let t := (t.add_specialization "Surgery" "Orthopedics").2
  let t := (t.add_specialization "Cardiology" "Electrophysiology").2
  let t := (t.add_specialization "Orthopedics" "Sports Medicine").2
  let t := (t.add_specialization "Emergency" "Trauma").2
  let t := (t.assign_doctor "Emergency" "Dr. Ramon Cruz"
    "Specializes in immediate care and triage management.").2
  let t := (t.assign_doctor "Emergency" "Dra. Sofia Reyes"
    "Lead physician for non-critical emergency cases.").2
  let t := (t.assign_doctor "Trauma" "Dr. Paolo Ocampo"
    "Expert in severe physical injury and complex trauma protocols.").2
  let t := (t.assign_doctor "Trauma" "Dra. Lea Perez"
    "Focuses on stabilization and surgical planning for acute trauma.").2
  let t := (t.assign_doctor "Internal Medicine" "Dr. Antonio Dizon"
    "General internal medicine and chronic disease management.").2
  let t := (t.assign_doctor "Internal Medicine" "Dra. Maria Santos"
    "Focuses on diagnostic challenges and long-term adult care.").2
  let t := (t.assign_doctor "Cardiology" "Dr. Jose Garcia"
    "Non-invasive cardiology and heart disease prevention.").2
  let t := (t.assign_doctor "Electrophysiology" "Dra. Christine Lopez"
    "Specialist in heart rhythm disorders and pacemaker implantation.").2
  let t := (t.assign_doctor "Dermatology" "Dra. Elena Mendoza"
    "Expert in complex skin conditions and dermatological procedures.").2
  let t := (t.assign_doctor "Pediatrics" "Dra. Leila Gonzales"
    "Dedicated to pediatric primary care and infectious diseases in children.").2
  let t := (t.assign_doctor "Surgery" "Dr. Roberto Lim"
    "General surgeon with focus on abdominal and soft tissue procedures.").2
  let t := (t.assign_doctor "Orthopedics" "Dra. Carmen Ramos"
    "Specialist in joint replacement and geriatric orthopedic care.").2
  let t := (t.assign_doctor "Sports Medicine" "Dr. Miguel Dela Cruz"
    "Expert in musculoskeletal injuries and rehabilitation.").2
  t

theorem find_in_children_append (xs ys : SForest) (nm : String) :
    (find_in_children (xs.append ys) nm).isSome =
      ((find_in_children xs nm).isSome || (find_in_children ys nm).isSome) := by
  cases xs with
  | nil => rw [SForest.append, find_in_children]; simp
  | cons c rest =>
    rw [SForest.append, find_in_children, find_in_children]
    cases find_node c nm with
    | some r => simp
    | none => simp [find_in_children_append rest ys nm]

mutual

theorem add_isSome_iff_find (p c : String) (t : SNode) :
    (add_node p c t).isSome = (find_node t p).isSome := by
  cases t with
  | mk n ds cs =>
    rw [add_node, find_node]
    by_cases h : pyLower n = pyLower p
    · simp [h]
    · simp [h, add_list_isSome_iff_find p c cs]

theorem add_list_isSome_iff_find (p c : String) (cs : SForest) :
    (add_list p c cs).isSome = (find_in_children cs p).isSome := by
  cases cs with
  | nil => rw [add_list, find_in_children]; rfl
  | cons hd tl =>
    rw [add_list, find_in_children]
    have h1 := add_isSome_iff_find p c hd
    cases hfind : find_node hd p with
    | some r =>
      rw [hfind] at h1
      cases hadd : add_node p c hd with
      | some c2 => simp
      | none => rw [hadd] at h1; simp at h1
    | none =>
      rw [hfind] at h1
      cases hadd : add_node p c hd with
      | some c2 => rw [hadd] at h1; simp at h1
      | none => simp [add_list_isSome_iff_find p c tl]

end

mutual

theorem find_child_of_add (p c : String) (t t2 : SNode)
    (h : add_node p c t = some t2) : (find_node t2 c).isSome = true := by
  cases t with
  | mk n ds cs =>
    rw [add_node] at h
    by_cases hn : pyLower n = pyLower p
    · rw [if_pos hn] at h
      injection h with h2
      subst h2
      rw [find_node]
      by_cases hc : pyLower n = pyLower c
      · simp [hc]
      · rw [if_neg hc, find_in_children_append]
        have hnew : (find_in_children
            (SForest.cons (SNode.mk c [] SForest.nil) SForest.nil) c).isSome = true := by
          rw [find_in_children, find_node]
          simp
        rw [hnew]
        simp
    · rw [if_neg hn] at h
      cases hl : add_list p c cs with
      | none => rw [hl] at h; simp at h
      | some cs2 =>
        rw [hl] at h
        have h2 : SNode.mk n ds cs2 = t2 := by simpa using h
        subst h2
        rw [find_node]
        by_cases hc : pyLower n = pyLower c
        · simp [hc]
        · rw [if_neg hc]
          exact find_child_of_add_list p c cs cs2 hl

theorem find_child_of_add_list (p c : String) (cs cs2 : SForest)
    (h : add_list p c cs = some cs2) : (find_in_children cs2 c).isSome = true := by
  cases cs with
  | nil => rw [add_list] at h; exact absurd h (by simp)
  | cons c0 rest =>
    rw [add_list] at h
    cases ha : add_node p c c0 with
    | some c02 =>
      rw [ha] at h
      injection h with h2
      subst h2
      rw [find_in_children]
      have hc0 := find_child_of_add p c c0 c02 ha
      cases hf : find_node c02 c with
      | some r => simp
      | none => rw [hf] at hc0; simp at hc0
    | none =>
      rw [ha] at h
      cases hl : add_list p c rest with
      | none => rw [hl] at h; simp at h
      | some r2 =>
        rw [hl] at h
        have h2 : SForest.cons c0 r2 = cs2 := by simpa using h
        subst h2
        rw [find_in_children]
        cases hf : find_node c0 c with
        | some r => simp
        | none => exact find_child_of_add_list p c rest r2 hl

end

/-- C8: `add_specialization parent child` reports success exactly when the
case-insensitive depth-first search from the root finds a node named
`parent`; on success a lookup of `child` on the resulting tree succeeds; on
failure the tree is returned entirely unchanged. -/
theorem add_specialization_spec (t : SpecializationTree)
    (parent_name child_name : String) :
    ((t.add_specialization parent_name child_name).1 = true ↔
      (find_node t.root parent_name).isSome = true) ∧
    ((t.add_specialization parent_name child_name).1 = true →
      (find_node (t.add_specialization parent_name child_name).2.root
        child_name).isSome = true) ∧
    ((t.add_specialization parent_name child_name).1 = false →
      (t.add_specialization parent_name child_name).2 = t) := by
  have hiff := add_isSome_iff_find parent_name child_name t.root
  cases hadd : add_node parent_name child_name t.root with
  | none =>
    rw [hadd] at hiff
    refine ⟨?_, ?_, ?_⟩
    · rw [SpecializationTree.add_specialization, hadd]
      simp [← hiff]
    · rw [SpecializationTree.add_specialization, hadd]
      simp
    · rw [SpecializationTree.add_specialization, hadd]
      simp
  | some r =>
    rw [hadd] at hiff
    refine ⟨?_, ?_, ?_⟩
    · rw [SpecializationTree.add_specialization, hadd]
      simp [← hiff]
    · intro _
      rw [SpecializationTree.add_specialization, hadd]
      exact find_child_of_add parent_name child_name t.root r hadd
    · rw [SpecializationTree.add_specialization, hadd]
      simp

/-- Witness for C8: on the seeded tree, adding "Interventional Cardiology"
under "Cardiology" succeeds and the new department is then found by lookup;
adding under "NoSuchDept" fails and leaves the tree unchanged. -/
theorem add_specialization_spec_witness :
    ((SpecializationTree.seed "City General Hospital").add_specialization
      "Cardiology" "Interventional Cardiology").1 = true ∧
    (find_node ((SpecializationTree.seed "City General Hospital").add_specialization
      "Cardiology" "Interventional Cardiology").2.root
      "Interventional Cardiology").isSome = true ∧
    ((SpecializationTree.seed "City General Hospital").add_specialization
      "NoSuchDept" "X").1 = false ∧
    ((SpecializationTree.seed "City General Hospital").add_specialization
      "NoSuchDept" "X").2 = SpecializationTree.seed "City General Hospital" :=
  ⟨by decide,
   (add_specialization_spec (SpecializationTree.seed "City General Hospital")
     "Cardiology" "Interventional Cardiology").2.1 (by decide),
   by decide,
   (add_specialization_spec (SpecializationTree.seed "City General Hospital")
     "NoSuchDept" "X").2.2 (by decide)⟩

/-! ### HospitalManagementSystem (`hospital_system.py`, facade)

Every facade operation that performs unguarded `patient_records[key]`
indexing returns `Option`: `none` models an uncaught `KeyError` (which the
request layer catches and turns into a generic server error). -/

/-- The facade state. `next_id` is the model's fresh-id counter standing for
the process-unique `uuid` tokens (see module comment). -/
structure HospitalManagementSystem where
  hospital_name : String
  patient_queue : PatientQueue
  patient_records : Nat → Option TreatmentStack
  specializations : SpecializationTree
  current_treatment_id : Option Nat
  current_patient_name : Option String
  current_patient_condition : Option String
  current_patient_doctor : Option String
  next_id : Nat

/-- Python `self.patient_records[key] = record`: point update of the dict. -/
def updRec (m : Nat → Option TreatmentStack) (i : Nat) (r : TreatmentStack) :
    Nat → Option TreatmentStack :=
  fun j => if j = i then some r else m j

namespace HospitalManagementSystem

/-- `HospitalManagementSystem.__init__`: seeded directory, empty slot, and
the two pre-loaded demo patients (ids 0 and 1 in the counter model). -/
def init (hospital_name : String) : HospitalManagementSystem :=
  let q0 := PatientQueue.init
  let e1 := q0.enqueue 0 "Alice Johnson" "Severe fever"
  let e2 := e1.2.enqueue 1 "Bob Davis" "Broken arm"
  let r1 : TreatmentStack :=
    { TreatmentStack.init with patient_id := some e1.1.patient_id,
                               initial_condition := e1.1.condition }
  let r2 : TreatmentStack :=
    { TreatmentStack.init with patient_id := some e2.1.patient_id,
                               initial_condition := e2.1.condition }
  { hospital_name := hospital_name,
    patient_queue := e2.2,
    patient_records := updRec (updRec (fun _ => none) e1.1.patient_id r1)
      e2.1.patient_id r2,
    specializations := SpecializationTree.seed hospital_name,
    current_treatment_id := none,
    current_patient_name := none,
    current_patient_condition := none,
    current_patient_doctor := none,
    next_id := 2 }

/-- `register_patient`: enqueue with a fresh id, create the Waiting ledger. -/
def register_patient (name condition : String) (s : HospitalManagementSystem) :
    Nat × HospitalManagementSystem :=
  let e := s.patient_queue.enqueue s.next_id name condition
  let new_record : TreatmentStack :=
    { TreatmentStack.init with patient_id := some e.1.patient_id,
                               initial_condition := condition }
  (e.1.patient_id,
   { s with patient_queue := e.2,
            patient_records := updRec s.patient_records e.1.patient_id new_record,
            next_id := s.next_id + 1 })

/-- `treat_next_patient`: dequeues, unconditionally clears the slot, then on
success repopulates it, flips the ledger status and auto-pushes the triage
step (stamped `now`). `none` models the `KeyError` on a dequeued id that is
not a key of `patient_records`. -/
def treat_next_patient (now : String) (s : HospitalManagementSystem) :
    Option (Option Nat × HospitalManagementSystem) :=
  let d := s.patient_queue.dequeue
  let s1 := { s with patient_queue := d.2,
                     current_treatment_id := none,
                     current_patient_name := none,
                     current_patient_condition := none,
                     current_patient_doctor := none }
  match d.1 with
  | none => some (none, s1)
  | some patient =>
    match s1.patient_records patient.patient_id with
    | none => none
    | some record =>
      let record2 := { record with status := "In Treatment" }
      let record3 := record2.push now
        ("Initial Triage for " ++ patient.condition ++ ".")
      some (some patient.patient_id,
        { s1 with current_treatment_id := some patient.patient_id,
                  current_patient_name := some patient.name,
                  current_patient_condition := some patient.condition,
                  patient_records := updRec s1.patient_records
                    patient.patient_id record3 })

/-- `add_treatment_step`: requires a current patient; pushes onto their
ledger (stamped `now`). -/
def add_treatment_step (detail now : String) (s : HospitalManagementSystem) :
    Option (Bool × HospitalManagementSystem) :=
  match s.current_treatment_id with
  | none => some (false, s)
  | some i =>
    match s.patient_records i with
    | none => none
    | some record =>
      let m2 := updRec s.patient_records i (record.push now detail)
      some (true, { s with patient_records := m2 })

/-- `undo_last_treatment`: requires a current patient; pops their ledger and
reports whether something was removed. -/
def undo_last_treatment (s : HospitalManagementSystem) :
    Option (Bool × HospitalManagementSystem) :=
  match s.current_treatment_id with
  | none => some (false, s)
  | some i =>
    match s.patient_records i with
    | none => none
    | some record =>
      let pr := record.pop
      some (pr.1.isSome, { s with patient_records := updRec s.patient_records i pr.2 })

/-- `assign_doctor_to_current`: requires a current patient; sets the
ledger's assigned physician. The argument is optional because the request
layer passes the raw (possibly absent) `doctor_name` field through. -/
def assign_doctor_to_current (doctor_name : Option String)
    (s : HospitalManagementSystem) : Option (Bool × HospitalManagementSystem) :=
  match s.current_treatment_id with
  | none => some (false, s)
  | some i =>
    match s.patient_records i with
    | none => none
    | some record =>
      let m2 := updRec s.patient_records i { record with assigned_doctor := doctor_name }
      some (true, { s with patient_records := m2 })

/-- `get_patient_name_by_id`: scan the live queue; placeholder otherwise. -/
def get_patient_name_by_id (s : HospitalManagementSystem) (patient_id : Nat) :
    String :=
  match s.patient_queue.items.find? (fun p => p.patient_id == patient_id) with
  | some p => p.name
  | none => "Patient " ++ toString patient_id

end HospitalManagementSystem

/-- One visit of the assembled patient record display. -/
structure VisitView where
  registration_time : String
  condition : String
  status : String
  assigned_doctor : Option String
  treatment_history : List TreatmentEntry
deriving DecidableEq

/-- The assembled patient record display (`get_patient_record`). -/
structure PatientRecordView where
  id : Nat
  name : String
  full_visits : List VisitView
deriving DecidableEq

/-- `get_patient_record`: `none` when the id is not a key; otherwise the
single-visit display record, with the registration time taken from the first
history entry when one exists and the literal `"N/A"` otherwise. -/
def HospitalManagementSystem.get_patient_record
    (s : HospitalManagementSystem) (patient_id : Nat) : Option PatientRecordView :=
  match s.patient_records patient_id with
  | none => none
  | some record =>
    some { id := patient_id,
           name := s.get_patient_name_by_id patient_id,
           full_visits := [{
             registration_time :=
               match record.get_history with
               | [] => "N/A"
               | e :: _ => e.timestamp,
             condition := record.initial_condition,
             status := record.status,
             assigned_doctor := record.assigned_doctor,
             treatment_history := record.get_history }] }

/-! ### The request layer (`app.py`), for the endpoints the claims need -/

/-- The `status` discriminator of the JSON responses. -/
inductive ApiStatus where
  | success
  | error
  | info
deriving DecidableEq

/-- A JSON response of the API layer: status plus message. -/
structure ApiResponse where
  status : ApiStatus
  message : String
deriving DecidableEq

/-- Python `str` of a possibly-`None` value inside an f-string. -/
def optStr : Option String → String
  | none => "None"
  | some v => v

namespace App

/-- `app.py` `undo_treatment` endpoint: checks slot presence itself, then
lets the pop's own empty-signal distinguish "nothing to undo". The
`KeyError` branch is the endpoint's generic exception handler. -/
def undo_treatment (s : HospitalManagementSystem) :
    ApiResponse × HospitalManagementSystem :=
  if s.current_treatment_id.isNone then
    ({ status := .error, message := "No patient currently selected for treatment." }, s)
  else
    match s.undo_last_treatment with
    | none => ({ status := .error, message := "Undo failed: KeyError" }, s)
    | some (true, s2) =>
      ({ status := .info, message := "Last treatment step successfully undone." }, s2)
    | some (false, s2) =>
      ({ status := .info, message := "Treatment history is empty. Nothing to undo." }, s2)

/-- `app.py` `assign_doctor` endpoint: reads the raw `doctor_name` field
(`none` when missing), checks only slot presence, and passes the value
through unvalidated. -/
def assign_doctor (doctor_name : Option String) (s : HospitalManagementSystem) :
    ApiResponse × HospitalManagementSystem :=
  if s.current_treatment_id.isNone then
    ({ status := .error, message := "Please start treating a patient first." }, s)
  else
    match s.assign_doctor_to_current doctor_name with
    | none => ({ status := .error, message := "Assignment failed: KeyError" }, s)
    | some (true, s2) =>
      ({ status := .success,
         message := "Doctor " ++ optStr doctor_name ++ " assigned to current patient." }, s2)
    | some (false, s2) =>
      ({ status := .error, message := "Failed to assign doctor." }, s2)

end App

/-! ### Reachable states and the cross-structure invariants (C2, C10) -/

/-- Every patient identity held in the queue is a key of `patient_records`. -/
def queueKeys (s : HospitalManagementSystem) : Prop :=
  ∀ p ∈ s.patient_queue.items, (s.patient_records p.patient_id).isSome = true

/-- Every key of `patient_records` is below the fresh-id counter. -/
def recordKeysBound (s : HospitalManagementSystem) : Prop :=
  ∀ i, (s.patient_records i).isSome = true → i < s.next_id

/-- C2's slot coherence: the current-treatment slot is either fully empty or
fully populated with an id that is a key of `patient_records` whose ledger
has status "In Treatment". -/
def slotOk (s : HospitalManagementSystem) : Prop :=
  (s.current_treatment_id = none ∧ s.current_patient_name = none ∧
    s.current_patient_condition = none) ∨
  (∃ i nm c r, s.current_treatment_id = some i ∧
    s.current_patient_name = some nm ∧
    s.current_patient_condition = some c ∧
    s.patient_records i = some r ∧ r.status = "In Treatment")

/-- The inductive invariant maintained by every facade operation. -/
def Inv (s : HospitalManagementSystem) : Prop :=
  queueKeys s ∧ recordKeysBound s ∧ slotOk s

/-- The states reachable from construction by sequences of mutating facade
operations (the reading operations do not change the state). A step of an
operation that would raise `KeyError` produces no state, matching the fact
that such a step never occurs from a reachable state (see
`reachable_no_keyerror`). -/
inductive Reachable : HospitalManagementSystem → Prop where
  | init (hospital_name : String) :
      Reachable (HospitalManagementSystem.init hospital_name)
  | register (s : HospitalManagementSystem) (name condition : String) :
      Reachable s →
      Reachable (HospitalManagementSystem.register_patient name condition s).2
  | treat (s s2 : HospitalManagementSystem) (now : String) (ret : Option Nat) :
      Reachable s →
      HospitalManagementSystem.treat_next_patient now s = some (ret, s2) →
      Reachable s2
  | step (s s2 : HospitalManagementSystem) (detail now : String) (b : Bool) :
      Reachable s →
      HospitalManagementSystem.add_treatment_step detail now s = some (b, s2) →
      Reachable s2
  | undo (s s2 : HospitalManagementSystem) (b : Bool) :
      Reachable s →
      HospitalManagementSystem.undo_last_treatment s = some (b, s2) →
      Reachable s2
  | assign (s s2 : HospitalManagementSystem) (doctor_name : Option String) (b : Bool) :
      Reachable s →
      HospitalManagementSystem.assign_doctor_to_current doctor_name s = some (b, s2) →
      Reachable s2

theorem updRec_self (m : Nat → Option TreatmentStack) (i : Nat) (r : TreatmentStack) :
    updRec m i r i = some r := by simp [updRec]

theorem updRec_ne (m : Nat → Option TreatmentStack) (i : Nat) (r : TreatmentStack)
    (j : Nat) (h : j ≠ i) : updRec m i r j = m j := by simp [updRec, h]

theorem updRec_isSome (m : Nat → Option TreatmentStack) (i : Nat) (r : TreatmentStack)
    (j : Nat) (h : (m j).isSome = true) : (updRec m i r j).isSome = true := by
  by_cases hj : j = i <;> simp [updRec, hj, h]

theorem pop_status (r : TreatmentStack) : r.pop.2.status = r.status := by
  cases h : r.items.getLast? <;> simp [TreatmentStack.pop, h]

theorem inv_init (hospital_name : String) :
    Inv (HospitalManagementSystem.init hospital_name) := by
  refine ⟨?_, ?_, ?_⟩
  · intro p hp
    have hmem : p = { patient_id := 0, name := "Alice Johnson", condition := "Severe fever" } ∨
        p = { patient_id := 1, name := "Bob Davis", condition := "Broken arm" } := by
      simpa [HospitalManagementSystem.init, PatientQueue.enqueue, PatientQueue.init]
        using hp
    rcases hmem with h | h <;> subst h <;> rfl
  · intro i h
    show i < (HospitalManagementSystem.init hospital_name).next_id
    by_cases h1 : i = 1
    · subst h1; exact Nat.one_lt_two
    by_cases h0 : i = 0
    · subst h0; exact Nat.zero_lt_two
    · exfalso
      simp [HospitalManagementSystem.init, PatientQueue.enqueue, PatientQueue.init,
        updRec, h0, h1] at h
  · exact Or.inl ⟨rfl, rfl, rfl⟩

theorem inv_register (s : HospitalManagementSystem) (name condition : String)
    (hI : Inv s) :
    Inv (HospitalManagementSystem.register_patient name condition s).2 := by
  obtain ⟨hq, hb, hs⟩ := hI
  refine ⟨?_, ?_, ?_⟩
  · intro p hp
    simp only [HospitalManagementSystem.register_patient, PatientQueue.enqueue,
      List.mem_append, List.mem_singleton] at hp ⊢
    rcases hp with hp | hp
    · exact updRec_isSome _ _ _ _ (hq p hp)
    · subst hp
      simp [updRec]
  · intro i h
    simp only [HospitalManagementSystem.register_patient, PatientQueue.enqueue] at h ⊢
    by_cases hi : i = s.next_id
    · omega
    · rw [updRec_ne _ _ _ _ hi] at h
      have := hb i h
      omega
  · rcases hs with ⟨h1, h2, h3⟩ | ⟨i, nm, c, r, h1, h2, h3, h4, h5⟩
    · exact Or.inl ⟨h1, h2, h3⟩
    · refine Or.inr ⟨i, nm, c, r, h1, h2, h3, ?_, h5⟩
      have hlt : i < s.next_id := hb i (by simp [h4])
      simp only [HospitalManagementSystem.register_patient, PatientQueue.enqueue]
      rw [updRec_ne _ _ _ _ (by omega)]
      exact h4

theorem inv_treat (s s2 : HospitalManagementSystem) (now : String) (ret : Option Nat)
    (hI : Inv s)
    (h : HospitalManagementSystem.treat_next_patient now s = some (ret, s2)) :
    Inv s2 := by
  obtain ⟨hq, hb, hs⟩ := hI
  cases hqi : s.patient_queue.items with
  | nil =>
    have hdq : s.patient_queue.dequeue = (none, s.patient_queue) := by
      simp [PatientQueue.dequeue, hqi]
    simp only [HospitalManagementSystem.treat_next_patient, hdq] at h
    rw [Option.some_inj] at h
    obtain ⟨h1, h2⟩ := Prod.ext_iff.mp h
    dsimp at h2
    subst h2
    refine ⟨?_, ?_, ?_⟩
    · intro p hp
      exact hq p hp
    · intro i hi
      exact hb i hi
    · exact Or.inl ⟨rfl, rfl, rfl⟩
  | cons p rest =>
    have hdq : s.patient_queue.dequeue =
        (some p, { items := rest, size := s.patient_queue.size - 1 }) := by
      simp [PatientQueue.dequeue, hqi]
    have hpmem : p ∈ s.patient_queue.items := by
      rw [hqi]; exact List.mem_cons_self _ _
    have hps := hq p hpmem
    cases hrecv : s.patient_records p.patient_id with
    | none => rw [hrecv] at hps; simp at hps
    | some record =>
      simp only [HospitalManagementSystem.treat_next_patient, hdq, hrecv] at h
      rw [Option.some_inj] at h
      obtain ⟨h1, h2⟩ := Prod.ext_iff.mp h
      dsimp at h2
      subst h2
      refine ⟨?_, ?_, ?_⟩
      · intro q hq2
        dsimp at hq2 ⊢
        have hmem : q ∈ s.patient_queue.items := by
          rw [hqi]; exact List.mem_cons_of_mem _ hq2
        exact updRec_isSome _ _ _ _ (hq q hmem)
      · intro i hi
        dsimp at hi ⊢
        by_cases hip : i = p.patient_id
        · have : p.patient_id < s.next_id := hb p.patient_id (by simp [hrecv])
          omega
        · rw [updRec_ne _ _ _ _ hip] at hi
          exact hb i hi
      · exact Or.inr ⟨p.patient_id, p.name, p.condition, _, rfl, rfl, rfl,
          updRec_self _ _ _, rfl⟩

theorem inv_add_step (s s2 : HospitalManagementSystem) (detail now : String) (b : Bool)
    (hI : Inv s)
    (h : HospitalManagementSystem.add_treatment_step detail now s = some (b, s2)) :
    Inv s2 := by
  obtain ⟨hq, hb2, hs⟩ := hI
  cases hcur : s.current_treatment_id with
  | none =>
    simp only [HospitalManagementSystem.add_treatment_step, hcur] at h
    rw [Option.some_inj] at h
    obtain ⟨h1, h2⟩ := Prod.ext_iff.mp h
    dsimp at h2
    subst h2
    exact ⟨hq, hb2, hs⟩
  | some i =>
    rcases hs with ⟨h1, _, _⟩ | ⟨i2, nm, c, r, h1, h2, h3, h4, h5⟩
    · rw [hcur] at h1; exact absurd h1 (by simp)
    · rw [hcur] at h1
      have hii : i = i2 := Option.some.inj h1
      subst hii
      simp only [HospitalManagementSystem.add_treatment_step, hcur, h4] at h
      rw [Option.some_inj] at h
      obtain ⟨hr1, hr2⟩ := Prod.ext_iff.mp h
      dsimp at hr2
      subst hr2
      refine ⟨?_, ?_, ?_⟩
      · intro q hq2
        dsimp at hq2 ⊢
        exact updRec_isSome _ _ _ _ (hq q hq2)
      · intro j hj
        dsimp at hj ⊢
        by_cases hji : j = i
        · have : i < s.next_id := hb2 i (by simp [h4])
          omega
        · rw [updRec_ne _ _ _ _ hji] at hj
          exact hb2 j hj
      · exact Or.inr ⟨i, nm, c, r.push now detail, rfl, h2, h3,
          updRec_self _ _ _, h5⟩

theorem inv_undo (s s2 : HospitalManagementSystem) (b : Bool)
    (hI : Inv s)
    (h : HospitalManagementSystem.undo_last_treatment s = some (b, s2)) :
    Inv s2 := by
  obtain ⟨hq, hb2, hs⟩ := hI
  cases hcur : s.current_treatment_id with
  | none =>
    simp only [HospitalManagementSystem.undo_last_treatment, hcur] at h
    rw [Option.some_inj] at h
    obtain ⟨h1, h2⟩ := Prod.ext_iff.mp h
    dsimp at h2
    subst h2
    exact ⟨hq, hb2, hs⟩
  | some i =>
    rcases hs with ⟨h1, _, _⟩ | ⟨i2, nm, c, r, h1, h2, h3, h4, h5⟩
    · rw [hcur] at h1; exact absurd h1 (by simp)
    · rw [hcur] at h1
      have hii : i = i2 := Option.some.inj h1
      subst hii
      simp only [HospitalManagementSystem.undo_last_treatment, hcur, h4] at h
      rw [Option.some_inj] at h
      obtain ⟨hr1, hr2⟩ := Prod.ext_iff.mp h
      dsimp at hr2
      subst hr2
      refine ⟨?_, ?_, ?_⟩
      · intro q hq2
        dsimp at hq2 ⊢
        exact updRec_isSome _ _ _ _ (hq q hq2)
      · intro j hj
        dsimp at hj ⊢
        by_cases hji : j = i
        · have : i < s.next_id := hb2 i (by simp [h4])
          omega
        · rw [updRec_ne _ _ _ _ hji] at hj
          exact hb2 j hj
      · refine Or.inr ⟨i, nm, c, r.pop.2, rfl, h2, h3, updRec_self _ _ _, ?_⟩
        rw [pop_status]
        exact h5

theorem inv_assign (s s2 : HospitalManagementSystem) (doctor_name : Option String)
    (b : Bool) (hI : Inv s)
    (h : HospitalManagementSystem.assign_doctor_to_current doctor_name s = some (b, s2)) :
    Inv s2 := by
  obtain ⟨hq, hb2, hs⟩ := hI
  cases hcur : s.current_treatment_id with
  | none =>
    simp only [HospitalManagementSystem.assign_doctor_to_current, hcur] at h
    rw [Option.some_inj] at h
    obtain ⟨h1, h2⟩ := Prod.ext_iff.mp h
    dsimp at h2
    subst h2
    exact ⟨hq, hb2, hs⟩
  | some i =>
    rcases hs with ⟨h1, _, _⟩ | ⟨i2, nm, c, r, h1, h2, h3, h4, h5⟩
    · rw [hcur] at h1; exact absurd h1 (by simp)
    · rw [hcur] at h1
      have hii : i = i2 := Option.some.inj h1
      subst hii
      simp only [HospitalManagementSystem.assign_doctor_to_current, hcur, h4] at h
      rw [Option.some_inj] at h
      obtain ⟨hr1, hr2⟩ := Prod.ext_iff.mp h
      dsimp at hr2
      subst hr2
      refine ⟨?_, ?_, ?_⟩
      · intro q hq2
        dsimp at hq2 ⊢
        exact updRec_isSome _ _ _ _ (hq q hq2)
      · intro j hj
        dsimp at hj ⊢
        by_cases hji : j = i
        · have : i < s.next_id := hb2 i (by simp [h4])
          omega
        · rw [updRec_ne _ _ _ _ hji] at hj
          exact hb2 j hj
      · exact Or.inr ⟨i, nm, c, { r with assigned_doctor := doctor_name },
          rfl, h2, h3, updRec_self _ _ _, h5⟩

theorem reachable_inv (s : HospitalManagementSystem) (h : Reachable s) : Inv s := by
  induction h with
  | init hospital_name => exact inv_init hospital_name
  | register s name condition _ ih => exact inv_register s name condition ih
  | treat s s2 now ret _ heq ih => exact inv_treat s s2 now ret ih heq
  | step s s2 detail now b _ heq ih => exact inv_add_step s s2 detail now b ih heq
  | undo s s2 b _ heq ih => exact inv_undo s s2 b ih heq
  | assign s s2 doctor_name b _ heq ih => exact inv_assign s s2 doctor_name b ih heq

/-- C2: in every state reachable from construction by facade operations the
current-treatment slot is either fully empty or fully populated with
`current_treatment_id` a key of `patient_records` whose ledger has status
"In Treatment". -/
theorem slot_invariant (s : HospitalManagementSystem) (h : Reachable s) :
    slotOk s :=
  (reachable_inv s h).2.2

/-- Witness for C2 at the concrete initial state. -/
theorem slot_invariant_witness :
    slotOk (HospitalManagementSystem.init "City General Hospital") :=
  slot_invariant _ (Reachable.init "City General Hospital")

/-- C10: in every reachable state, every patient identity held in the queue
and the current treatment id (when set) are keys of `patient_records`;
hence each of the four facade operations that index the dictionary
unguardedly under their slot-presence checks completes without a
missing-key error (returns `some` result). -/
theorem reachable_no_keyerror (s : HospitalManagementSystem) (h : Reachable s) :
    queueKeys s ∧
    (∀ i, s.current_treatment_id = some i → (s.patient_records i).isSome = true) ∧
    (∀ now, (HospitalManagementSystem.treat_next_patient now s).isSome = true) ∧
    (∀ detail now,
      (HospitalManagementSystem.add_treatment_step detail now s).isSome = true) ∧
    (HospitalManagementSystem.undo_last_treatment s).isSome = true ∧
    (∀ doctor_name,
      (HospitalManagementSystem.assign_doctor_to_current doctor_name s).isSome = true) := by
  obtain ⟨hq, hb, hs⟩ := reachable_inv s h
  have hcur : ∀ i, s.current_treatment_id = some i →
      (s.patient_records i).isSome = true := by
    intro i hi
    rcases hs with ⟨h1, _, _⟩ | ⟨i2, nm, c, r, h1, _, _, h4, _⟩
    · rw [h1] at hi; exact absurd hi (by simp)
    · rw [h1] at hi
      have hii : i2 = i := Option.some.inj hi
      subst hii
      simp [h4]
  refine ⟨hq, hcur, ?_, ?_, ?_, ?_⟩
  · intro now
    cases hqi : s.patient_queue.items with
    | nil =>
      have hdq : s.patient_queue.dequeue = (none, s.patient_queue) := by
        simp [PatientQueue.dequeue, hqi]
      simp [HospitalManagementSystem.treat_next_patient, hdq]
    | cons p rest =>
      have hdq : s.patient_queue.dequeue =
          (some p, { items := rest, size := s.patient_queue.size - 1 }) := by
        simp [PatientQueue.dequeue, hqi]
      have hps := hq p (by rw [hqi]; exact List.mem_cons_self _ _)
      cases hrecv : s.patient_records p.patient_id with
      | none => rw [hrecv] at hps; simp at hps
      | some r =>
        simp [HospitalManagementSystem.treat_next_patient, hdq, hrecv]
  · intro detail now
    cases hcuri : s.current_treatment_id with
    | none => simp [HospitalManagementSystem.add_treatment_step, hcuri]
    | some i =>
      have hps := hcur i hcuri
      cases hrecv : s.patient_records i with
      | none => rw [hrecv] at hps; simp at hps
      | some r => simp [HospitalManagementSystem.add_treatment_step, hcuri, hrecv]
  · cases hcuri : s.current_treatment_id with
    | none => simp [HospitalManagementSystem.undo_last_treatment, hcuri]
    | some i =>
      have hps := hcur i hcuri
      cases hrecv : s.patient_records i with
      | none => rw [hrecv] at hps; simp at hps
      | some r => simp [HospitalManagementSystem.undo_last_treatment, hcuri, hrecv]
  · intro doctor_name
    cases hcuri : s.current_treatment_id with
    | none => simp [HospitalManagementSystem.assign_doctor_to_current, hcuri]
    | some i =>
      have hps := hcur i hcuri
      cases hrecv : s.patient_records i with
      | none => rw [hrecv] at hps; simp at hps
      | some r => simp [HospitalManagementSystem.assign_doctor_to_current, hcuri, hrecv]

/-- Witness for C10 at the concrete initial state: the four indexing
operations all complete without a missing-key error. -/
theorem reachable_no_keyerror_witness :
    (HospitalManagementSystem.treat_next_patient "2024-06-01 08:00:00"
      (HospitalManagementSystem.init "City General Hospital")).isSome = true ∧
    (HospitalManagementSystem.add_treatment_step "Checked vitals"
      "2024-06-01 08:05:00"
      (HospitalManagementSystem.init "City General Hospital")).isSome = true ∧
    (HospitalManagementSystem.undo_last_treatment
      (HospitalManagementSystem.init "City General Hospital")).isSome = true ∧
    (HospitalManagementSystem.assign_doctor_to_current (some "Dr. Jose Garcia")
      (HospitalManagementSystem.init "City General Hospital")).isSome = true :=
  ⟨(reachable_no_keyerror _ (Reachable.init _)).2.2.1 _,
   (reachable_no_keyerror _ (Reachable.init _)).2.2.2.1 _ _,
   (reachable_no_keyerror _ (Reachable.init _)).2.2.2.2.1,
   (reachable_no_keyerror _ (Reachable.init _)).2.2.2.2.2 _⟩

/-! ### Functional correctness of `treat_next_patient` (C1, C9) -/

/-- The ledger after `treat_next_patient` flips the status and auto-pushes
the triage step. -/
def triagedRecord (r : TreatmentStack) (now condition : String) : TreatmentStack :=
  let e : TreatmentEntry :=
    { timestamp := now, detail := "Initial Triage for " ++ condition ++ "." }
  { r with status := "In Treatment", items := r.items ++ [e] }

theorem treat_next_cons (s : HospitalManagementSystem) (now : String)
    (p : PatientNode) (rest : List PatientNode) (r : TreatmentStack)
    (hq : s.patient_queue.items = p :: rest)
    (hr : s.patient_records p.patient_id = some r) :
    HospitalManagementSystem.treat_next_patient now s =
      some (some p.patient_id,
        { s with
            patient_queue := { items := rest, size := s.patient_queue.size - 1 },
            current_treatment_id := some p.patient_id,
            current_patient_name := some p.name,
            current_patient_condition := some p.condition,
            current_patient_doctor := none,
            patient_records :=
              updRec s.patient_records p.patient_id (triagedRecord r now p.condition) }) := by
  have hdq : s.patient_queue.dequeue =
      (some p, { items := rest, size := s.patient_queue.size - 1 }) := by
    simp [PatientQueue.dequeue, hq]
  simp [HospitalManagementSystem.treat_next_patient, hdq, hr, TreatmentStack.push,
    triagedRecord]

/-- C1: in a state whose queue holds P1 then P2 (both registered), two
successive `treat_next_patient` calls return P1's identity then P2's
identity, and immediately after each call the ledger stored for the
returned identity has status "In Treatment" and a treatment history of
length at least 1 (the automatically pushed triage step). -/
theorem treat_next_two_in_fifo_order (s : HospitalManagementSystem)
    (p1 p2 : PatientNode) (rest : List PatientNode) (r1 r2 : TreatmentStack)
    (t1 t2 : String)
    (hq : s.patient_queue.items = p1 :: p2 :: rest)
    (hr1 : s.patient_records p1.patient_id = some r1)
    (hr2 : s.patient_records p2.patient_id = some r2) :
    ∃ s1 s2,
      HospitalManagementSystem.treat_next_patient t1 s = some (some p1.patient_id, s1) ∧
      HospitalManagementSystem.treat_next_patient t2 s1 = some (some p2.patient_id, s2) ∧
      (∃ q1, s1.patient_records p1.patient_id = some q1 ∧
        q1.status = "In Treatment" ∧ 1 ≤ q1.items.length) ∧
      (∃ q2, s2.patient_records p2.patient_id = some q2 ∧
        q2.status = "In Treatment" ∧ 1 ≤ q2.items.length) := by
  have h1 := treat_next_cons s t1 p1 (p2 :: rest) r1 hq hr1
  by_cases hid : p2.patient_id = p1.patient_id
  · have hlook : (updRec s.patient_records p1.patient_id
        (triagedRecord r1 t1 p1.condition)) p2.patient_id =
        some (triagedRecord r1 t1 p1.condition) := by
      rw [hid]; exact updRec_self _ _ _
    refine ⟨_, _, h1, treat_next_cons _ t2 p2 rest _ rfl hlook, ?_, ?_⟩
    · exact ⟨_, updRec_self _ _ _, rfl, by simp [triagedRecord]⟩
    · exact ⟨_, updRec_self _ _ _, rfl, by simp [triagedRecord]⟩
  · have hlook : (updRec s.patient_records p1.patient_id
        (triagedRecord r1 t1 p1.condition)) p2.patient_id = some r2 := by
      rw [updRec_ne _ _ _ _ hid]; exact hr2
    refine ⟨_, _, h1, treat_next_cons _ t2 p2 rest _ rfl hlook, ?_, ?_⟩
    · exact ⟨_, updRec_self _ _ _, rfl, by simp [triagedRecord]⟩
    · exact ⟨_, updRec_self _ _ _, rfl, by simp [triagedRecord]⟩

/-- C9: `treat_next_patient` on an empty queue returns the empty-signal and
its only state change is the clearing of the current-treatment slot: the
queue, all patient ledgers, and the specialization directory are unchanged
(visible in the frame of the state update). -/
theorem treat_next_empty_queue (s : HospitalManagementSystem) (now : String)
    (h : s.patient_queue.items = []) :
    HospitalManagementSystem.treat_next_patient now s =
      some (none, { s with current_treatment_id := none,
                           current_patient_name := none,
                           current_patient_condition := none,
                           current_patient_doctor := none }) := by
  have hdq : s.patient_queue.dequeue = (none, s.patient_queue) := by
    simp [PatientQueue.dequeue, h]
  simp [HospitalManagementSystem.treat_next_patient, hdq]

/-! ### Concrete demo states used by the witnesses -/

/-- The freshly constructed system (as built by `app.py` at process start). -/
def demoInit : HospitalManagementSystem :=
  HospitalManagementSystem.init "City General Hospital"

/-- The system after one `treat_next_patient` (Alice is current). -/
def demoTreat1 : HospitalManagementSystem :=
  match HospitalManagementSystem.treat_next_patient "2024-06-01 09:00:00" demoInit with
  | some r => r.2
  | none => demoInit

/-- Alice's ledger in `demoInit` (registered, still waiting). -/
def demoRecordWaiting : TreatmentStack :=
  { items := [], patient_id := some 0, initial_condition := "Severe fever",
    status := "Waiting", assigned_doctor := none }

/-- The auto-pushed triage entry for Alice. -/
def demoEntry1 : TreatmentEntry :=
  { timestamp := "2024-06-01 09:00:00", detail := "Initial Triage for Severe fever." }

/-- Alice's ledger in `demoTreat1` (in treatment, auto-triage step pushed). -/
def demoRecord1 : TreatmentStack :=
  { items := [demoEntry1], patient_id := some 0, initial_condition := "Severe fever",
    status := "In Treatment", assigned_doctor := none }

/-- Alice's ledger after undoing the triage step (empty history, still in
treatment). -/
def demoRecordEmptied : TreatmentStack :=
  { items := [], patient_id := some 0, initial_condition := "Severe fever",
    status := "In Treatment", assigned_doctor := none }

/-- The system after `treat_next_patient` and one undo (Alice current,
history empty). -/
def demoUndone : HospitalManagementSystem := (App.undo_treatment demoTreat1).2

/-- The system after `treat_next_patient` and a doctor assignment. -/
def demoAssigned : HospitalManagementSystem :=
  (App.assign_doctor (some "Dr. Jose Garcia") demoTreat1).2

/-- Alice's ledger in `demoAssigned`. -/
def demoRecordAssigned : TreatmentStack :=
  { items := [demoEntry1], patient_id := some 0, initial_condition := "Severe fever",
    status := "In Treatment", assigned_doctor := some "Dr. Jose Garcia" }

/-- The system after both demo patients have been treated (empty queue). -/
def demoEmptyQueue : HospitalManagementSystem :=
  match HospitalManagementSystem.treat_next_patient "2024-06-01 09:30:00" demoTreat1 with
  | some r => r.2
  | none => demoTreat1

/-- The two pre-loaded demo patients as queue nodes. -/
def aliceNode : PatientNode :=
  { patient_id := 0, name := "Alice Johnson", condition := "Severe fever" }

/-- Bob's queue node in the initial state. -/
def bobNode : PatientNode :=
  { patient_id := 1, name := "Bob Davis", condition := "Broken arm" }

/-- Bob's ledger in `demoInit` (registered, still waiting). -/
def demoRecordBobWaiting : TreatmentStack :=
  { items := [], patient_id := some 1, initial_condition := "Broken arm",
    status := "Waiting", assigned_doctor := none }

/-- Witness for C1 at the initial state: Alice then Bob are treated in
arrival order, with status and auto-triage step after each call. -/
theorem treat_next_two_in_fifo_order_witness :
    ∃ s1 s2,
      HospitalManagementSystem.treat_next_patient "2024-06-01 09:00:00" demoInit =
        some (some aliceNode.patient_id, s1) ∧
      HospitalManagementSystem.treat_next_patient "2024-06-01 09:30:00" s1 =
        some (some bobNode.patient_id, s2) ∧
      (∃ q1, s1.patient_records aliceNode.patient_id = some q1 ∧
        q1.status = "In Treatment" ∧ 1 ≤ q1.items.length) ∧
      (∃ q2, s2.patient_records bobNode.patient_id = some q2 ∧
        q2.status = "In Treatment" ∧ 1 ≤ q2.items.length) :=
  treat_next_two_in_fifo_order demoInit aliceNode bobNode [] demoRecordWaiting
    demoRecordBobWaiting "2024-06-01 09:00:00" "2024-06-01 09:30:00" rfl rfl rfl

/-- Witness for C9 at a concrete empty-queue state (both demo patients have
been treated). -/
theorem treat_next_empty_queue_witness :
    HospitalManagementSystem.treat_next_patient "2024-06-01 10:00:00" demoEmptyQueue =
      some (none, { demoEmptyQueue with
                      current_treatment_id := none,
                      current_patient_name := none,
                      current_patient_condition := none,
                      current_patient_doctor := none }) :=
  treat_next_empty_queue demoEmptyQueue "2024-06-01 10:00:00" rfl

/-! ### The undo boundary (C5) -/

/-- C5: `undo_treatment` at the request boundary distinguishes three
outcomes: with no current patient it rejects with no mutation; with a
current patient whose history is empty it reports "nothing to undo" and the
state (in particular every ledger) is unchanged; with a non-empty history it
removes exactly the most recent step of the current patient's ledger (all
other ledgers visible unchanged in the point update) and reports success. -/
theorem undo_outcomes (s : HospitalManagementSystem) (i : Nat) (r : TreatmentStack) :
    (s.current_treatment_id = none →
      App.undo_treatment s =
        ({ status := .error,
           message := "No patient currently selected for treatment." }, s)) ∧
    (s.current_treatment_id = some i → s.patient_records i = some r →
      r.items = [] →
      App.undo_treatment s =
        ({ status := .info,
           message := "Treatment history is empty. Nothing to undo." }, s)) ∧
    (s.current_treatment_id = some i → s.patient_records i = some r →
      r.items ≠ [] →
      App.undo_treatment s =
        ({ status := .info,
           message := "Last treatment step successfully undone." },
         { s with patient_records :=
             updRec s.patient_records i { r with items := r.items.dropLast } })) := by
  refine ⟨?_, ?_, ?_⟩
  · intro h
    simp [App.undo_treatment, h]
  · intro h1 h2 h3
    have hupd : updRec s.patient_records i r = s.patient_records := by
      funext j
      by_cases hj : j = i
      · subst hj; simp [updRec, h2]
      · simp [updRec, hj]
    have hpop : r.pop = (none, r) := by
      simp [TreatmentStack.pop, h3]
    simp only [App.undo_treatment, h1, Option.isNone_some, Bool.false_eq_true,
      if_false, HospitalManagementSystem.undo_last_treatment, h2, hpop,
      Option.isSome_none, hupd]
    rw [← h1]
  · intro h1 h2 h3
    obtain ⟨e, he⟩ := Option.isSome_iff_exists.mp
      (List.getLast?_isSome.mpr h3 : r.items.getLast?.isSome)
    have hpop : r.pop = (some e, { r with items := r.items.dropLast }) := by
      simp [TreatmentStack.pop, he]
    simp only [App.undo_treatment, h1, Option.isNone_some, Bool.false_eq_true,
      if_false, HospitalManagementSystem.undo_last_treatment, h2, hpop,
      Option.isSome_some]

/-- Alice's ledger with the most recent (only) step removed. -/
def demoRecordPopped : TreatmentStack :=
  { demoRecord1 with items := demoRecord1.items.dropLast }

/-- Witness for C5: the three outcomes at concrete states (fresh system;
after treating Alice and undoing the triage step; after treating Alice). -/
theorem undo_outcomes_witness :
    App.undo_treatment demoInit =
      ({ status := .error,
         message := "No patient currently selected for treatment." }, demoInit) ∧
    App.undo_treatment demoUndone =
      ({ status := .info,
         message := "Treatment history is empty. Nothing to undo." }, demoUndone) ∧
    App.undo_treatment demoTreat1 =
      ({ status := .info,
         message := "Last treatment step successfully undone." },
       { demoTreat1 with
           patient_records := updRec demoTreat1.patient_records 0 demoRecordPopped }) :=
  ⟨(undo_outcomes demoInit 0 TreatmentStack.init).1 rfl,
   (undo_outcomes demoUndone 0 demoRecordEmptied).2.1 rfl rfl rfl,
   (undo_outcomes demoTreat1 0 demoRecord1).2.2 rfl rfl (by decide)⟩

/-! ### The registration timestamp of `get_patient_record` (C6) -/

/-- C6 counterexample: for a registered patient with an empty history (Alice
in the fresh system), `get_patient_record` reports the registration
timestamp as the literal "N/A", not "unknown" as the specification states. -/
theorem registration_time_is_NA_not_unknown :
    (demoInit.get_patient_record 0).map
        (fun v => v.full_visits.map VisitView.registration_time) = some ["N/A"] ∧
    "N/A" ≠ "unknown" :=
  ⟨rfl, by decide⟩

/-- C6 amended: for every identity that is a key of `patient_records`,
`get_patient_record` reports the registration timestamp as the timestamp of
the first (oldest) history entry when the history is non-empty, and as the
literal "N/A" when the history is empty. -/
theorem registration_time_from_first_entry (s : HospitalManagementSystem)
    (i : Nat) (r : TreatmentStack) (h : s.patient_records i = some r) :
    (r.items = [] →
      (s.get_patient_record i).map
        (fun v => v.full_visits.map VisitView.registration_time) = some ["N/A"]) ∧
    (∀ e tl, r.items = e :: tl →
      (s.get_patient_record i).map
        (fun v => v.full_visits.map VisitView.registration_time) = some [e.timestamp]) := by
  constructor
  · intro hitems
    simp [HospitalManagementSystem.get_patient_record, h,
      TreatmentStack.get_history, hitems]
  · intro e tl hitems
    simp [HospitalManagementSystem.get_patient_record, h,
      TreatmentStack.get_history, hitems]

/-- Witness for the amended C6 at concrete states: Alice's empty history in
the fresh system yields "N/A"; after treatment begins the first entry's
timestamp is reported. -/
theorem registration_time_from_first_entry_witness :
    (demoInit.get_patient_record 0).map
        (fun v => v.full_visits.map VisitView.registration_time) = some ["N/A"] ∧
    (demoTreat1.get_patient_record 0).map
        (fun v => v.full_visits.map VisitView.registration_time) =
      some [demoEntry1.timestamp] :=
  ⟨(registration_time_from_first_entry demoInit 0 demoRecordWaiting rfl).1 rfl,
   (registration_time_from_first_entry demoTreat1 0 demoRecord1 rfl).2
     demoEntry1 [] rfl⟩

/-! ### The doctor-assignment boundary and missing fields (C7) -/

/-- C7 counterexample: a doctor-assignment request with the `doctor_name`
field missing is not rejected: at a concrete state with a current patient
whose ledger has an assigned doctor, the endpoint answers success ("Doctor
None assigned to current patient.") and overwrites the assigned-physician
field with the missing value. -/
theorem assign_doctor_missing_name_not_rejected :
    (App.assign_doctor none demoAssigned).1.status = ApiStatus.success ∧
    (App.assign_doctor none demoAssigned).1.message =
      "Doctor None assigned to current patient." ∧
    ((App.assign_doctor none demoAssigned).2.patient_records 0).map
      TreatmentStack.assigned_doctor = some none ∧
    (demoAssigned.patient_records 0).map TreatmentStack.assigned_doctor =
      some (some "Dr. Jose Garcia") :=
  ⟨rfl, rfl, rfl, rfl⟩

/-- C7 amended: the `assign_doctor` endpoint performs no validation of the
`doctor_name` field. A request with the field missing is rejected only by
the state-precondition check (no current patient, no mutation); when a
current patient exists the request succeeds and the current patient's
assigned-physician field is overwritten with the missing value. -/
theorem assign_doctor_missing_name_behavior (s : HospitalManagementSystem)
    (i : Nat) (r : TreatmentStack) :
    (s.current_treatment_id = none →
      App.assign_doctor none s =
        ({ status := .error,
           message := "Please start treating a patient first." }, s)) ∧
    (s.current_treatment_id = some i → s.patient_records i = some r →
      App.assign_doctor none s =
        ({ status := .success,
           message := "Doctor None assigned to current patient." },
         { s with patient_records :=
             updRec s.patient_records i { r with assigned_doctor := none } })) := by
  constructor
  · intro h
    simp [App.assign_doctor, h]
  · intro h1 h2
    simp [App.assign_doctor, h1,
      HospitalManagementSystem.assign_doctor_to_current, h2, optStr]

/-- Alice's ledger with the assigned doctor overwritten by the missing value. -/
def demoRecordCleared : TreatmentStack :=
  { demoRecordAssigned with assigned_doctor := none }

/-- Witness for the amended C7 at concrete states. -/
theorem assign_doctor_missing_name_behavior_witness :
    App.assign_doctor none demoInit =
      ({ status := .error,
         message := "Please start treating a patient first." }, demoInit) ∧
    App.assign_doctor none demoAssigned =
      ({ status := .success,
         message := "Doctor None assigned to current patient." },
       { demoAssigned with
           patient_records := updRec demoAssigned.patient_records 0 demoRecordCleared }) :=
  ⟨(assign_doctor_missing_name_behavior demoInit 0 TreatmentStack.init).1 rfl,
   (assign_doctor_missing_name_behavior demoAssigned 0 demoRecordAssigned).2
     rfl rfl⟩
